import Mathlib

/-!
Verification of the lifting-diary data-access and mutation layers.

Shallow embedding of the repository's core:
  * `src/db/schema.ts` — the four tables (exercises, workouts, workout_exercises,
    sets) with their cascade-delete references;
  * `src/data/workouts.ts` (the variant colocated with
    `app/dashboard/workout/[workoutId]/actions.ts`) — `createWorkout`,
    `updateWorkout`, `deleteWorkout`, `getUserWorkouts`, `getWorkout`;
  * the `"use server"` variant of `src/data/workouts.ts` —
    `getUserWorkoutsByDate`, and its two-argument `updateWorkout`
    (not among the provided files; modelled from the spec, see
    `ServerWorkouts.updateWorkout`);
  * the server actions `createWorkoutAction` and `updateWorkoutAction`.

Timestamps are modelled as milliseconds since the epoch (`Nat`), a database
table as a `List` of rows, and the drizzle `orderBy` clauses as insertion
sort on the corresponding key.
-/

namespace LiftingDiary

/-- A row of the `workouts` table (`src/db/schema.ts`): serial id, owning
`user_id` varchar, nullable `name`, required `started_at`, nullable
`completed_at`, and `created_at`/`updated_at` defaulting to now. -/
structure Workout where
  id : Nat
  userId : String
  name : Option String
  startedAt : Nat
  completedAt : Option Nat
  createdAt : Nat
  updatedAt : Nat
  deriving DecidableEq, Repr

/-- A row of the `exercises` table: master exercise library. -/
structure Exercise where
  id : Nat
  name : String
  createdAt : Nat
  updatedAt : Nat
  deriving DecidableEq, Repr

/-- A row of the `workout_exercises` junction table; `workoutId` references
`workouts.id` with `onDelete: 'cascade'`, `exerciseId` references
`exercises.id` with `onDelete: 'cascade'`. -/
structure WorkoutExercise where
  id : Nat
  workoutId : Nat
  exerciseId : Nat
  order : Nat
  createdAt : Nat
  deriving DecidableEq, Repr

/-- A row of the `sets` table; `workoutExerciseId` references
`workout_exercises.id` with `onDelete: 'cascade'`. Drizzle surfaces the
`numeric(10,2)` weight column to the application as a string. -/
structure SetRow where
  id : Nat
  workoutExerciseId : Nat
  setNumber : Nat
  weight : String
  reps : Nat
  createdAt : Nat
  deriving DecidableEq, Repr

/-- The relational store: the four tables of `src/db/schema.ts`. -/
structure DBState where
  workouts : List Workout
  exercises : List Exercise
  workoutExercises : List WorkoutExercise
  sets : List SetRow
  deriving DecidableEq, Repr

/-- The `workouts.id` column is a serial primary key: no two rows share an id. -/
def uniqueIds (ws : List Workout) : Prop :=
  ws.Pairwise (fun a b => a.id ≠ b.id)

instance (ws : List Workout) : Decidable (uniqueIds ws) := by
  unfold uniqueIds; infer_instance

/-! ### Data Access Layer (`src/data/workouts.ts`) -/

/-- `getWorkout(id, userId)`: select where `id` and `user_id` both match,
limit 1, destructure the first row (`undefined` = `none` when no match). -/
def getWorkout (id : Nat) (userId : String) (ws : List Workout) : Option Workout :=
  ws.find? (fun w => w.id == id && w.userId == userId)

/-- The id a serial primary key assigns to the next inserted row:
larger than every id already present. -/
def nextWorkoutId (ws : List Workout) : Nat :=
  ws.foldr (fun w acc => max w.id acc) 0 + 1

/-- Input type `CreateWorkoutData` of `src/data/workouts.ts`. -/
structure CreateWorkoutData where
  userId : String
  name : Option String
  startedAt : Nat
  deriving DecidableEq, Repr

/-- `createWorkout(data)`: insert the values with schema defaults
(`completed_at` null, `created_at`/`updated_at` = now) and return the
inserted row. -/
def createWorkout (data : CreateWorkoutData) (now : Nat) (ws : List Workout) :
    Workout × List Workout :=
  let w : Workout :=
    { id := nextWorkoutId ws
      userId := data.userId
      name := data.name
      startedAt := data.startedAt
      completedAt := none
      createdAt := now
      updatedAt := now }
  (w, ws ++ [w])

/-- Input type `UpdateWorkoutData` of `src/data/workouts.ts`: optional `name`
and `completedAt`; `none` models a field absent from the object. -/
structure UpdateWorkoutData where
  name : Option String := none
  completedAt : Option Nat := none
  deriving DecidableEq, Repr

/-- The row produced by `.set({ ...data, updatedAt: new Date() })`: fields
present in `data` overwrite, absent fields are untouched, and `updated_at`
is always refreshed. -/
def applyUpdate (data : UpdateWorkoutData) (now : Nat) (w : Workout) : Workout :=
  { w with
    name := match data.name with
      | some n => some n
      | none => w.name
    completedAt := match data.completedAt with
      | some c => some c
      | none => w.completedAt
    updatedAt := now }

/-- `updateWorkout(id, userId, data)`: update where `id` and `user_id` both
match, set the supplied fields plus `updatedAt`, return the first updated
row and the new table state. -/
def updateWorkout (id : Nat) (userId : String) (data : UpdateWorkoutData)
    (now : Nat) (ws : List Workout) : Option Workout × List Workout :=
  let hit := fun (w : Workout) => w.id == id && w.userId == userId
  (((ws.filter hit).map (applyUpdate data now)).head?,
    ws.map (fun w => if hit w then applyUpdate data now w else w))

/-- `deleteWorkout(id, userId)` together with the storage engine's referential
actions: the row is removed only where `id` and `user_id` both match; the
`onDelete: 'cascade'` references of `src/db/schema.ts` then remove every
`workout_exercises` row pointing at a deleted workout and every `sets` row
pointing at a removed `workout_exercises` row.  Returns the first deleted
row and the resulting store. -/
def deleteWorkout (id : Nat) (userId : String) (db : DBState) :
    Option Workout × DBState :=
  let hit := fun (w : Workout) => w.id == id && w.userId == userId
  let deleted := db.workouts.filter hit
  let weGone := fun (we : WorkoutExercise) => deleted.any (fun w => w.id == we.workoutId)
  let delWE := db.workoutExercises.filter weGone
  let setGone := fun (s : SetRow) => delWE.any (fun we => we.id == s.workoutExerciseId)
  (deleted.head?,
    { db with
      workouts := db.workouts.filter (fun w => !hit w)
      workoutExercises := db.workoutExercises.filter (fun we => !weGone we)
      sets := db.sets.filter (fun s => !setGone s) })

/-! ### `getUserWorkoutsByDate` (`"use server"` variant of `src/data/workouts.ts`) -/

/-- `orderBy: [desc(workouts.startedAt)]`. -/
def byStartedAtDesc (a b : Workout) : Prop := b.startedAt ≤ a.startedAt

instance : DecidableRel byStartedAtDesc := fun a b => Nat.decLe b.startedAt a.startedAt

instance : IsTotal Workout byStartedAtDesc :=
  ⟨fun a b => Nat.le_total b.startedAt a.startedAt⟩

instance : IsTrans Workout byStartedAtDesc :=
  ⟨fun _ _ _ h1 h2 => Nat.le_trans h2 h1⟩

/-- `orderBy: asc(workoutExercises.order)`. -/
def byOrderAsc (a b : WorkoutExercise) : Prop := a.order ≤ b.order

instance : DecidableRel byOrderAsc := fun a b => Nat.decLe a.order b.order

instance : IsTotal WorkoutExercise byOrderAsc := ⟨fun a b => Nat.le_total a.order b.order⟩

instance : IsTrans WorkoutExercise byOrderAsc := ⟨fun _ _ _ => Nat.le_trans⟩

/-- `orderBy: asc(sets.setNumber)`. -/
def bySetNumberAsc (a b : SetRow) : Prop := a.setNumber ≤ b.setNumber

instance : DecidableRel bySetNumberAsc := fun a b => Nat.decLe a.setNumber b.setNumber

instance : IsTotal SetRow bySetNumberAsc := ⟨fun a b => Nat.le_total a.setNumber b.setNumber⟩

instance : IsTrans SetRow bySetNumberAsc := ⟨fun _ _ _ => Nat.le_trans⟩

/-- One element of the eagerly-loaded `with: { workoutExercises: { exercise, sets } }`
result: a junction row together with its joined exercise and its sets. -/
structure WorkoutExerciseWithChildren where
  we : WorkoutExercise
  exercise : Option Exercise
  sets : List SetRow
  deriving DecidableEq, Repr

/-- A workout as returned by the relational query API: the row plus its
ordered `workoutExercises` children. -/
structure WorkoutWithChildren where
  workout : Workout
  workoutExercises : List WorkoutExerciseWithChildren
  deriving DecidableEq, Repr

/-- The eager-load of one workout's children: its `workout_exercises` rows
ordered by `order` ascending, each with its joined exercise and its `sets`
rows ordered by `set_number` ascending. -/
def loadChildren (db : DBState) (w : Workout) : List WorkoutExerciseWithChildren :=
  (((db.workoutExercises.filter (fun we => we.workoutId == w.id)).insertionSort byOrderAsc).map
    (fun we =>
      { we := we
        exercise := db.exercises.find? (fun e => e.id == we.exerciseId)
        sets := (db.sets.filter (fun s => s.workoutExerciseId == we.id)).insertionSort
          bySetNumberAsc }))

/-- Milliseconds in a day. -/
def msPerDay : Nat := 86400000

/-- `getUserWorkoutsByDate(date)`: resolves the caller from `auth()` (throwing
`Unauthorized` when absent), widens `date` to `[startOfDay, endOfDay]` with
`setHours(0,0,0,0)` and `setHours(23,59,59,999)`, and fetches the caller's
workouts with `gte(startedAt, startOfDay)`, `lt(startedAt, endOfDay)`,
ordered by `startedAt` descending with ordered children.  The date argument
is modelled as a day index, so `startOfDay = day * msPerDay`. -/
def getUserWorkoutsByDate (authUserId : Option String) (day : Nat) (db : DBState) :
    Except String (List WorkoutWithChildren) :=
  match authUserId with
  | none => .error "Unauthorized"
  | some userId =>
    let startOfDay := day * msPerDay
    let endOfDay := day * msPerDay + (msPerDay - 1)
    .ok ((((db.workouts.filter (fun w =>
        w.userId == userId && startOfDay ≤ w.startedAt && w.startedAt < endOfDay)).insertionSort
          byStartedAtDesc).map
      (fun w => { workout := w, workoutExercises := loadChildren db w })))

/-! ### Mutation layer (server actions) -/

/-- One field-level issue of a zod validation failure. -/
structure FieldIssue where
  path : String
  message : String
  deriving DecidableEq, Repr

/-- A value thrown by JavaScript code, as far as the actions' `catch` blocks
distinguish: an `Error` (carrying its message) or any other thrown value. -/
inductive JsError where
  | error : String → JsError
  | nonError : JsError
  deriving DecidableEq, Repr

/-- What a server action does, seen from its caller: either a value is
thrown out of it, or it returns. -/
inductive Outcome (α : Type) where
  | thrown : JsError → Outcome α
  | thrownZod : List FieldIssue → Outcome α
  | returned : α → Outcome α
  deriving DecidableEq, Repr

/-- The uniform `{ success, workout?, error? }` result object. -/
structure ActionResult where
  success : Bool
  workout : Option Workout := none
  error : Option String := none
  deriving DecidableEq, Repr

/-- The typed input of `createWorkoutAction`:
`{ name?: string; startedAt: string }`. -/
structure CreateActionInput where
  name : Option String
  startedAt : String
  deriving DecidableEq, Repr

/-- The issues `createWorkoutSchema.parse` collects: `name` is optional but,
when present, must satisfy `min(1, 'Workout name is required')` and
`max(255, 'Name is too long')`; `startedAt` must satisfy the refinement
`!isNaN(Date.parse(val))` with message `'Invalid date format'`.
`jsDateParse` stands for the platform's `Date.parse` (`none` = `NaN`). -/
def createWorkoutSchemaIssues (jsDateParse : String → Option Nat)
    (input : CreateActionInput) : List FieldIssue :=
  (match input.name with
    | some s =>
      (if s.length < 1 then [{ path := "name", message := "Workout name is required" }] else [])
        ++ (if 255 < s.length then [{ path := "name", message := "Name is too long" }] else [])
    | none => [])
    ++ (match jsDateParse input.startedAt with
      | none => [{ path := "startedAt", message := "Invalid date format" }]
      | some _ => [])

/-- `createWorkoutAction(input)`: `createWorkoutSchema.parse(input)` runs
outside any try/catch, so a validation failure throws the zod error to the
caller; then `auth()` is consulted and a missing identity returns
`{ success: false, error: 'Unauthorized' }`; then, inside try/catch,
`createWorkout({ userId, name, startedAt: new Date(...) })` runs, a storage
fault (`storageFault`) being caught and turned into the generic
`'Failed to create workout'`.  Returns the outcome and the workouts table. -/
def createWorkoutAction (jsDateParse : String → Option Nat)
    (authUserId : Option String) (storageFault : Option JsError)
    (input : CreateActionInput) (now : Nat) (ws : List Workout) :
    Outcome ActionResult × List Workout :=
  match createWorkoutSchemaIssues jsDateParse input with
  | i :: rest => (.thrownZod (i :: rest), ws)
  | [] =>
    match authUserId with
    | none => (.returned { success := false, error := some "Unauthorized" }, ws)
    | some userId =>
      match storageFault with
      | some _ =>
        (.returned { success := false, error := some "Failed to create workout" }, ws)
      | none =>
        match jsDateParse input.startedAt with
        | none => (.thrownZod [{ path := "startedAt", message := "Invalid date format" }], ws)
        | some t =>
          let (w, ws2) := createWorkout { userId := userId, name := input.name, startedAt := t }
            now ws
          (.returned { success := true, workout := some w }, ws2)

/-- The update payload accepted by the `'@/data/workouts'` `"use server"`
module's two-argument `updateWorkout(workoutId, data)`: optional `name`,
`startedAt` and nullable `completedAt`, matching the `updateData` object the
action builds.  `none` models an absent field; for `completedAt`,
`some none` models an explicit `null`. -/
structure UpdateWorkoutFields where
  name : Option String := none
  startedAt : Option Nat := none
  completedAt : Option (Option Nat) := none
  deriving DecidableEq, Repr

/-- Applying the supplied fields plus the refreshed update timestamp:
fields present in the payload overwrite, absent fields are untouched. -/
def applyUpdateFields (data : UpdateWorkoutFields) (now : Nat) (w : Workout) : Workout :=
  { w with
    name := match data.name with
      | some n => some n
      | none => w.name
    startedAt := match data.startedAt with
      | some t => t
      | none => w.startedAt
    completedAt := match data.completedAt with
      | some c => c
      | none => w.completedAt
    updatedAt := now }

namespace ServerWorkouts

/-- Modelled from the spec: the two-argument `updateWorkout(workoutId, data)`
of the `'@/data/workouts'` `"use server"` module — the module that defines
`getUserWorkoutsByDate` and `getUserWorkoutById`, and the one
`updateWorkoutAction` imports `updateWorkout` from — is not among the
provided source files; only its callers and sibling functions are.
Following the spec's description of the update operation: the caller's
identity is resolved from the request context, a missing identity being a
hard `Unauthorized` failure (thrown, as the sibling `getUserWorkoutsByDate`
throws `new Error("Unauthorized")`); ownership is re-verified by reading
first with the id-and-owner filter, absence being signalled by returning no
record rather than throwing; otherwise only the supplied fields are applied,
the update timestamp is refreshed, and the updated record is returned.  An
underlying storage fault (`storageFault`) propagates upward unchanged. -/
def updateWorkout (authUserId : Option String) (storageFault : Option JsError)
    (id : Nat) (data : UpdateWorkoutFields) (now : Nat) (ws : List Workout) :
    Except JsError (Option Workout × List Workout) :=
  match authUserId with
  | none => .error (.error "Unauthorized")
  | some userId =>
    match storageFault with
    | some e => .error e
    | none =>
      let hit := fun (w : Workout) => w.id == id && w.userId == userId
      match ws.find? hit with
      | none => .ok (none, ws)
      | some _ =>
        .ok (((ws.filter hit).map (applyUpdateFields data now)).head?,
          ws.map (fun w => if hit w then applyUpdateFields data now w else w))

end ServerWorkouts

/-- The list view's title (`src/components/dashboard/workouts-list.tsx`):
`workout.name || "Untitled Workout"` — the fixed fallback label is shown
for a null or empty name. -/
def workoutDisplayName (name : Option String) : String :=
  match name with
  | some n => if n = "" then "Untitled Workout" else n
  | none => "Untitled Workout"

/-! ### Helper lemmas -/

theorem find?_eq_head?_of_filter {α : Type} (p : α → Bool) (l : List α) :
    l.find? p = (l.filter p).head? := by
  induction l with
  | nil => rfl
  | cons a t ih =>
    by_cases h : p a = true
    · rw [List.find?_cons_of_pos t h, List.filter_cons_of_pos h]
      rfl
    · rw [List.find?_cons_of_neg t h, List.filter_cons_of_neg h, ih]

/-- In a table with pairwise-distinct ids, two rows with the same id coincide. -/
theorem eq_of_mem_of_id_eq {ws : List Workout} {x w : Workout}
    (hu : uniqueIds ws) (hx : x ∈ ws) (hw : w ∈ ws) (h : x.id = w.id) : x = w := by
  by_contra hne
  exact List.Pairwise.forall (fun a b hab => fun hba => hab hba.symm) hu hx hw hne h

/-- A predicate holding exactly at one member of a unique-id table filters to
that single row. -/
theorem filter_eq_singleton_of_unique {ws : List Workout} {w : Workout} {p : Workout → Bool}
    (hu : uniqueIds ws) (hmem : w ∈ ws) (hp : ∀ v ∈ ws, p v = true ↔ v = w) :
    ws.filter p = [w] := by
  induction ws with
  | nil => cases hmem
  | cons a t ih =>
    have ha := (List.pairwise_cons.mp hu).1
    have hu' : uniqueIds t := (List.pairwise_cons.mp hu).2
    rcases List.mem_cons.mp hmem with heq | hwt
    · have hpa : p a = true := (hp a (List.mem_cons_self a t)).mpr heq.symm
      have ht : t.filter p = [] := by
        apply List.filter_eq_nil_iff.mpr
        intro v hv hpv
        have hvw : v = w := (hp v (List.mem_cons_of_mem a hv)).mp hpv
        exact absurd (by rw [hvw, heq]) (ha v hv)
      rw [List.filter_cons_of_pos hpa, ht, heq]
    · have hpa : p a = false := by
        by_contra hcon
        rw [Bool.not_eq_false] at hcon
        have haw : a = w := (hp a (List.mem_cons_self a t)).mp hcon
        exact absurd (by rw [haw]) (ha w hwt)
      rw [List.filter_cons_of_neg (by simp [hpa])]
      exact ih hu' hwt (fun v hv => hp v (List.mem_cons_of_mem a hv))

/-! ### C1 — cross-user reads return absence -/

/-- C1: for a workout `W` owned by `U` and any other user `U2`,
`getWorkout(W.id, U2)` returns absence; and a record is returned only when
both the id matches and the record's `userId` equals the requesting owner. -/
theorem getWorkout_cross_user_isolation (ws : List Workout) (W : Workout) (U2 : String)
    (hu : uniqueIds ws) (hmem : W ∈ ws) (hne : W.userId ≠ U2) :
    getWorkout W.id U2 ws = none ∧
      ∀ id uid r, getWorkout id uid ws = some r → r.id = id ∧ r.userId = uid := by
  constructor
  · apply List.find?_eq_none.mpr
    intro x hx
    simp only [Bool.and_eq_true, beq_iff_eq, not_and]
    intro hid huid
    have hxW : x = W := eq_of_mem_of_id_eq hu hx hmem hid
    rw [hxW] at huid
    exact hne huid
  · intro id uid r hr
    have := List.find?_some hr
    simpa only [Bool.and_eq_true, beq_iff_eq] using this

/-- A concrete workout row used by witnesses. -/
def witWorkout : Workout :=
  { id := 1, userId := "u1", name := some "Leg Day", startedAt := 1736496000000
    completedAt := none, createdAt := 1736496000000, updatedAt := 1736496000000 }

theorem getWorkout_cross_user_isolation_witness :
    uniqueIds [witWorkout] ∧ witWorkout ∈ [witWorkout] ∧ witWorkout.userId ≠ "u2" ∧
      (getWorkout witWorkout.id "u2" [witWorkout] = none ∧
        ∀ id uid r, getWorkout id uid [witWorkout] = some r → r.id = id ∧ r.userId = uid) :=
  ⟨by decide, by decide, by decide,
    getWorkout_cross_user_isolation [witWorkout] witWorkout "u2" (by decide) (by decide)
      (by decide)⟩

/-! ### C8 — create-then-read round-trip -/

theorem id_le_foldMax {ws : List Workout} {v : Workout} (h : v ∈ ws) :
    v.id ≤ ws.foldr (fun w acc => max w.id acc) 0 := by
  induction ws with
  | nil => cases h
  | cons a t ih =>
    rcases List.mem_cons.mp h with heq | hvt
    · rw [heq]
      exact Nat.le_max_left a.id (t.foldr (fun w acc => max w.id acc) 0)
    · exact Nat.le_trans (ih hvt) (Nat.le_max_right a.id _)

/-- A serial primary key hands out an id no existing row carries. -/
theorem nextWorkoutId_fresh {ws : List Workout} {v : Workout} (h : v ∈ ws) :
    v.id ≠ nextWorkoutId ws := by
  have := id_le_foldMax h
  unfold nextWorkoutId
  omega

theorem find?_append_of_notfound {α : Type} (p : α → Bool) (l₁ l₂ : List α)
    (h : ∀ x ∈ l₁, ¬p x = true) : (l₁ ++ l₂).find? p = l₂.find? p := by
  induction l₁ with
  | nil => rfl
  | cons a t ih =>
    rw [List.cons_append, List.find?_cons_of_neg _ (h a (List.mem_cons_self a t))]
    exact ih (fun x hx => h x (List.mem_cons_of_mem a hx))

/-- C8: creating a workout and immediately reading it back with
`getWorkout(id, ownerId)` returns a record equal to the creation input on all
supplied fields, with `completedAt` null and `createdAt = updatedAt`. -/
theorem createWorkout_then_getWorkout_roundtrip (data : CreateWorkoutData) (now : Nat)
    (ws : List Workout) :
    getWorkout (createWorkout data now ws).1.id data.userId (createWorkout data now ws).2 =
        some (createWorkout data now ws).1 ∧
      (createWorkout data now ws).1.userId = data.userId ∧
      (createWorkout data now ws).1.name = data.name ∧
      (createWorkout data now ws).1.startedAt = data.startedAt ∧
      (createWorkout data now ws).1.completedAt = none ∧
      (createWorkout data now ws).1.createdAt = (createWorkout data now ws).1.updatedAt := by
  refine ⟨?_, rfl, rfl, rfl, rfl, rfl⟩
  show (ws ++ [(createWorkout data now ws).1]).find? _ = _
  rw [find?_append_of_notfound]
  · simp [createWorkout, List.find?]
  · intro x hx
    simp only [Bool.and_eq_true, beq_iff_eq, not_and]
    intro hid
    exact absurd hid (nextWorkoutId_fresh hx)

/-! ### C6 — partial updates leave unsupplied fields unchanged -/

/-- The ownership predicate of `updateWorkout`/`deleteWorkout` holds exactly
at the targeted row when ids are unique. -/
theorem hit_iff_eq {ws : List Workout} {w : Workout}
    (hu : uniqueIds ws) (hmem : w ∈ ws) :
    ∀ v ∈ ws, (v.id == w.id && v.userId == w.userId) = true ↔ v = w := by
  intro v hv
  constructor
  · intro hvt
    simp only [Bool.and_eq_true, beq_iff_eq] at hvt
    exact eq_of_mem_of_id_eq hu hv hmem hvt.1
  · intro hvw
    simp [hvw]

/-- C6: after `updateWorkout(id, ownerId, partialFields)` on a workout the
owner owns, the fields absent from the payload keep their previous values,
supplied fields take the supplied values, the update timestamp is refreshed,
and the updated record is returned; rows with other ids are untouched. -/
theorem updateWorkout_partial_update (ws : List Workout) (w : Workout)
    (data : UpdateWorkoutData) (now : Nat)
    (hu : uniqueIds ws) (hmem : w ∈ ws) :
    ∃ w2, (updateWorkout w.id w.userId data now ws).1 = some w2 ∧
      w2 ∈ (updateWorkout w.id w.userId data now ws).2 ∧
      w2.id = w.id ∧ w2.userId = w.userId ∧ w2.startedAt = w.startedAt ∧
      w2.createdAt = w.createdAt ∧ w2.updatedAt = now ∧
      (data.name = none → w2.name = w.name) ∧
      (∀ n, data.name = some n → w2.name = some n) ∧
      (data.completedAt = none → w2.completedAt = w.completedAt) ∧
      (∀ c, data.completedAt = some c → w2.completedAt = some c) ∧
      (∀ v ∈ ws, v.id ≠ w.id → v ∈ (updateWorkout w.id w.userId data now ws).2) := by
  have hfilter := filter_eq_singleton_of_unique hu hmem (hit_iff_eq hu hmem)
  refine ⟨applyUpdate data now w, ?_, ?_, rfl, rfl, rfl, rfl, rfl, ?_, ?_, ?_, ?_, ?_⟩
  · show ((ws.filter _).map (applyUpdate data now)).head? = _
    rw [hfilter]
    rfl
  · show applyUpdate data now w ∈ ws.map _
    have hw : (fun v => if (v.id == w.id && v.userId == w.userId) = true
        then applyUpdate data now v else v) w = applyUpdate data now w := by
      show (if (w.id == w.id && w.userId == w.userId) = true
        then applyUpdate data now w else w) = applyUpdate data now w
      rw [if_pos ((hit_iff_eq hu hmem w hmem).mpr rfl)]
    exact hw ▸ List.mem_map_of_mem _ hmem
  · intro h
    simp [applyUpdate, h]
  · intro n h
    simp [applyUpdate, h]
  · intro h
    simp [applyUpdate, h]
  · intro c h
    simp [applyUpdate, h]
  · intro v hv hvid
    show v ∈ ws.map _
    have hv2 : (fun u => if (u.id == w.id && u.userId == w.userId) = true
        then applyUpdate data now u else u) v = v := by
      show (if (v.id == w.id && v.userId == w.userId) = true
        then applyUpdate data now v else v) = v
      rw [if_neg]
      simp only [Bool.and_eq_true, beq_iff_eq, not_and]
      intro hc
      exact absurd hc hvid
    exact hv2 ▸ List.mem_map_of_mem _ hv

theorem updateWorkout_partial_update_witness :
    uniqueIds [witWorkout] ∧ witWorkout ∈ [witWorkout] ∧
      (∃ w2, (updateWorkout witWorkout.id witWorkout.userId
          { completedAt := some 1736499600000 } 1736499600000 [witWorkout]).1 = some w2 ∧
        w2 ∈ (updateWorkout witWorkout.id witWorkout.userId
          { completedAt := some 1736499600000 } 1736499600000 [witWorkout]).2 ∧
        w2.id = witWorkout.id ∧ w2.userId = witWorkout.userId ∧
        w2.startedAt = witWorkout.startedAt ∧ w2.createdAt = witWorkout.createdAt ∧
        w2.updatedAt = 1736499600000 ∧
        (({ completedAt := some 1736499600000 } : UpdateWorkoutData).name = none →
          w2.name = witWorkout.name) ∧
        (∀ n, ({ completedAt := some 1736499600000 } : UpdateWorkoutData).name = some n →
          w2.name = some n) ∧
        (({ completedAt := some 1736499600000 } : UpdateWorkoutData).completedAt = none →
          w2.completedAt = witWorkout.completedAt) ∧
        (∀ c, ({ completedAt := some 1736499600000 } : UpdateWorkoutData).completedAt = some c →
          w2.completedAt = some c) ∧
        (∀ v ∈ [witWorkout], v.id ≠ witWorkout.id →
          v ∈ (updateWorkout witWorkout.id witWorkout.userId
            { completedAt := some 1736499600000 } 1736499600000 [witWorkout]).2)) :=
  ⟨by decide, by decide,
    updateWorkout_partial_update [witWorkout] witWorkout { completedAt := some 1736499600000 }
      1736499600000 (by decide) (by decide)⟩

/-! ### C7 — delete is owner-scoped and cascades to children -/

/-- C7: deleting a workout the owner owns removes it and — by the schema's
cascade references — every `workout_exercises` row of that workout and every
`sets` row of those rows; the deleted record is returned.  For an owner no
row matches, nothing is deleted and absence is returned. -/
theorem deleteWorkout_cascade (db : DBState) (w : Workout)
    (hu : uniqueIds db.workouts) (hmem : w ∈ db.workouts) :
    (deleteWorkout w.id w.userId db).1 = some w ∧
      (∀ we ∈ (deleteWorkout w.id w.userId db).2.workoutExercises,
        we.workoutId ≠ w.id) ∧
      (∀ s ∈ (deleteWorkout w.id w.userId db).2.sets,
        ∀ we ∈ db.workoutExercises, we.workoutId = w.id → s.workoutExerciseId ≠ we.id) ∧
      (∀ uid, (∀ v ∈ db.workouts, ¬(v.id = w.id ∧ v.userId = uid)) →
        deleteWorkout w.id uid db = (none, db)) := by
  have hfilter := filter_eq_singleton_of_unique hu hmem (hit_iff_eq hu hmem)
  refine ⟨?_, ?_, ?_, ?_⟩
  · show (db.workouts.filter _).head? = some w
    rw [hfilter]
    rfl
  · intro we hwe
    have := (List.mem_filter.mp hwe).2
    rw [hfilter] at this
    simp only [Bool.not_eq_true', List.any_eq_false] at this
    have hne := this w (List.mem_cons_self w [])
    exact fun hc => hne (beq_iff_eq.mpr hc.symm)
  · intro s hs we hwe hweid
    have hkept := (List.mem_filter.mp hs).2
    simp only [Bool.not_eq_true', List.any_eq_false] at hkept
    intro hsid
    have hwedel : we ∈ db.workoutExercises.filter
        (fun we2 => (db.workouts.filter
          (fun v => v.id == w.id && v.userId == w.userId)).any
            (fun v => v.id == we2.workoutId)) := by
      apply List.mem_filter.mpr
      refine ⟨hwe, ?_⟩
      rw [hfilter]
      simp [hweid]
    exact hkept we hwedel (beq_iff_eq.mpr hsid.symm)
  · intro uid hnone
    have hnil : db.workouts.filter
        (fun v => v.id == w.id && v.userId == uid) = [] := by
      apply List.filter_eq_nil_iff.mpr
      intro v hv
      simp only [Bool.and_eq_true, beq_iff_eq, not_and]
      intro h1 h2
      exact hnone v hv ⟨h1, h2⟩
    have hw : db.workouts.filter (fun v =>
        !(v.id == w.id && v.userId == uid)) = db.workouts := by
      apply List.filter_eq_self.mpr
      intro v hv
      simp only [Bool.not_eq_true', Bool.and_eq_false_iff]
      by_cases hc : v.id = w.id
      · right
        have := hnone v hv
        simp only [beq_eq_false_iff_ne, ne_eq]
        intro h2
        exact this ⟨hc, h2⟩
      · left
        simp [hc]
    simp only [deleteWorkout]
    rw [hnil, hw]
    simp

/-- Concrete child rows used by witnesses. -/
def witExercise : Exercise := { id := 1, name := "Squat", createdAt := 0, updatedAt := 0 }

def witWE : WorkoutExercise :=
  { id := 1, workoutId := 1, exerciseId := 1, order := 1, createdAt := 0 }

def witSet : SetRow :=
  { id := 1, workoutExerciseId := 1, setNumber := 1, weight := "100.00", reps := 5, createdAt := 0 }

def witDB : DBState :=
  { workouts := [witWorkout], exercises := [witExercise]
    workoutExercises := [witWE], sets := [witSet] }

theorem deleteWorkout_cascade_witness :
    uniqueIds witDB.workouts ∧ witWorkout ∈ witDB.workouts ∧
      ((deleteWorkout witWorkout.id witWorkout.userId witDB).1 = some witWorkout ∧
        (∀ we ∈ (deleteWorkout witWorkout.id
            witWorkout.userId witDB).2.workoutExercises,
          we.workoutId ≠ witWorkout.id) ∧
        (∀ s ∈ (deleteWorkout witWorkout.id witWorkout.userId witDB).2.sets,
          ∀ we ∈ witDB.workoutExercises, we.workoutId = witWorkout.id →
            s.workoutExerciseId ≠ we.id) ∧
        (∀ uid, (∀ v ∈ witDB.workouts, ¬(v.id = witWorkout.id ∧ v.userId = uid)) →
          deleteWorkout witWorkout.id uid witDB = (none, witDB))) :=
  ⟨by decide, by decide, deleteWorkout_cascade witDB witWorkout (by decide) (by decide)⟩

/-! ### C5 — by-date query: window, ordering, nested ordering -/

theorem sorted_le_map_of_sorted {α : Type} {key : α → Nat} {r : α → α → Prop} {l : List α}
    (hr : ∀ a b, r a b → key a ≤ key b) (h : List.Sorted r l) :
    List.Sorted (· ≤ ·) (l.map key) :=
  List.pairwise_map.mpr (h.imp (fun hab => hr _ _ hab))

theorem sorted_ge_map_of_sorted {α : Type} {key : α → Nat} {r : α → α → Prop} {l : List α}
    (hr : ∀ a b, r a b → key b ≤ key a) (h : List.Sorted r l) :
    List.Sorted (fun a b => b ≤ a) (l.map key) :=
  List.pairwise_map.mpr (h.imp (fun hab => hr _ _ hab))

/-- C5: for the authenticated user `U` and a date, `getUserWorkoutsByDate`
returns exactly the workouts of `U` whose `startedAt` lies in the half-open
window `[D 00:00:00.000, D 23:59:59.999)`, ordered by `startedAt`
descending; within each returned workout the exercise list is ordered by
`order` ascending and each nested set list by `setNumber` ascending. -/
theorem getUserWorkoutsByDate_window_and_order (U : String) (day : Nat) (db : DBState) :
    ∃ rows, getUserWorkoutsByDate (some U) day db = .ok rows ∧
      (∀ w : Workout, (∃ v ∈ rows, v.workout = w) ↔
        (w ∈ db.workouts ∧ w.userId = U ∧ day * msPerDay ≤ w.startedAt ∧
          w.startedAt < day * msPerDay + (msPerDay - 1))) ∧
      List.Sorted (fun a b => b ≤ a) (rows.map (fun v => v.workout.startedAt)) ∧
      (∀ v ∈ rows,
        List.Sorted (· ≤ ·) (v.workoutExercises.map (fun c => c.we.order)) ∧
        ∀ c ∈ v.workoutExercises,
          List.Sorted (· ≤ ·) (c.sets.map (fun s => s.setNumber))) := by
  refine ⟨_, rfl, ?_, ?_, ?_⟩
  · intro w
    constructor
    · rintro ⟨v, hv, hvw⟩
      obtain ⟨w2, hw2, hfw⟩ := List.mem_map.mp hv
      have hww2 : w2 = w := by rw [← hvw, ← hfw]
      subst hww2
      have hwf := ((List.perm_insertionSort byStartedAtDesc _).mem_iff).mp hw2
      have := List.mem_filter.mp hwf
      refine ⟨this.1, ?_⟩
      have hb := this.2
      simp only [Bool.and_eq_true, beq_iff_eq, decide_eq_true_eq] at hb
      exact ⟨hb.1.1, hb.1.2, hb.2⟩
    · rintro ⟨hmem, hUid, hlo, hhi⟩
      refine ⟨{ workout := w, workoutExercises := loadChildren db w }, ?_, rfl⟩
      apply List.mem_map_of_mem
      apply ((List.perm_insertionSort byStartedAtDesc _).mem_iff).mpr
      apply List.mem_filter.mpr
      refine ⟨hmem, ?_⟩
      simp only [Bool.and_eq_true, beq_iff_eq, decide_eq_true_eq]
      exact ⟨⟨hUid, hlo⟩, hhi⟩
  · rw [List.map_map]
    exact sorted_ge_map_of_sorted (fun a b hab => hab)
      (List.sorted_insertionSort byStartedAtDesc _)
  · intro v hv
    obtain ⟨w2, _, hfw⟩ := List.mem_map.mp hv
    constructor
    · rw [← hfw]
      show List.Sorted _ ((loadChildren db w2).map _)
      unfold loadChildren
      rw [List.map_map]
      exact sorted_le_map_of_sorted (fun a b hab => hab)
        (List.sorted_insertionSort byOrderAsc _)
    · intro c hc
      rw [← hfw] at hc
      obtain ⟨we2, _, hgw⟩ := List.mem_map.mp hc
      rw [← hgw]
      exact sorted_le_map_of_sorted (fun a b hab => hab)
        (List.sorted_insertionSort bySetNumberAsc _)

/-! ### C2 — identity resolution in the mutation layer -/

/-- C3 counterexample: with an empty name, `createWorkoutAction` throws the
zod error out to the caller (`createWorkoutSchema.parse` runs outside the
try/catch) rather than returning a structured failure result. -/
theorem createWorkoutAction_throws_on_invalid_name :
    createWorkoutAction (fun _ => some 1736496000000) (some "u1") none
        { name := some "", startedAt := "2025-01-10T08:00:00Z" } 1736496000000 [] =
      (.thrownZod [{ path := "name", message := "Workout name is required" }], []) := rfl

/-- C3 amended: every input failing validation makes `createWorkoutAction`
throw the structured zod error — carrying the field-level issues — to the
caller, leaving the store untouched; no structured `{success: false}` result
is returned for validation failures. -/
theorem createWorkoutAction_validation_throws (jsDateParse : String → Option Nat)
    (authUserId : Option String) (storageFault : Option JsError) (input : CreateActionInput)
    (now : Nat) (ws : List Workout)
    (h : createWorkoutSchemaIssues jsDateParse input ≠ []) :
    createWorkoutAction jsDateParse authUserId storageFault input now ws =
      (.thrownZod (createWorkoutSchemaIssues jsDateParse input), ws) := by
  cases hi : createWorkoutSchemaIssues jsDateParse input with
  | nil => exact absurd hi h
  | cons i rest => simp [createWorkoutAction, hi]

theorem createWorkoutAction_validation_throws_witness :
    createWorkoutSchemaIssues (fun _ => none) { name := none, startedAt := "garbage" } ≠ [] ∧
      createWorkoutAction (fun _ => none) (some "u1") none
          { name := none, startedAt := "garbage" } 0 [] =
        (.thrownZod (createWorkoutSchemaIssues (fun _ => none)
          { name := none, startedAt := "garbage" }), []) :=
  ⟨by decide, createWorkoutAction_validation_throws _ _ _ _ _ _ (by decide)⟩

/-! ### C4 — what storage failures surface to the caller -/

/-- The row created by the C9 counterexample run. -/
def witCreated : Workout :=
  { id := 1, userId := "u1", name := none, startedAt := 1736496000000
    completedAt := none, createdAt := 1736496000000, updatedAt := 1736496000000 }

/-- C9 counterexample: creating a workout with an absent name succeeds and
stores a null name — no auto-generated label is written to the store. -/
theorem created_workout_name_stays_null :
    createWorkoutAction (fun _ => some 1736496000000) (some "u1") none
        { name := none, startedAt := "2025-01-10T08:00:00Z" } 1736496000000 [] =
      (.returned { success := true, workout := some witCreated }, [witCreated]) ∧
      witCreated.name = none :=
  ⟨rfl, rfl⟩

/-- C9 amended: a workout created with an absent name keeps a null stored
name, for which the list view renders the fixed fallback label
`"Untitled Workout"`; an empty-string name is rejected by validation
(thrown zod error) rather than stored. -/
theorem blank_name_null_and_display_fallback (jsDateParse : String → Option Nat)
    (uid : String) (startedAt : String) (t now : Nat) (ws : List Workout)
    (hdate : jsDateParse startedAt = some t) :
    (∃ w, createWorkoutAction jsDateParse (some uid) none
        { name := none, startedAt := startedAt } now ws =
        (.returned { success := true, workout := some w }, ws ++ [w]) ∧
      w.name = none ∧ workoutDisplayName w.name = "Untitled Workout") ∧
    (∀ authUserId storageFault, createWorkoutAction jsDateParse authUserId storageFault
        { name := some "", startedAt := startedAt } now ws =
      (.thrownZod [{ path := "name", message := "Workout name is required" }], ws)) := by
  constructor
  · refine ⟨Workout.mk (nextWorkoutId ws) uid none t none now now, ?_, rfl, rfl⟩
    simp [createWorkoutAction, createWorkoutSchemaIssues, hdate, createWorkout]
  · intro authUserId storageFault
    simp [createWorkoutAction, createWorkoutSchemaIssues, hdate]

theorem blank_name_null_and_display_fallback_witness :
    (fun _ : String => some 5) "2025-01-10" = some 5 ∧
      ((∃ w, createWorkoutAction (fun _ => some 5) (some "u1") none
          { name := none, startedAt := "2025-01-10" } 7 [] =
          (.returned { success := true, workout := some w }, [] ++ [w]) ∧
        w.name = none ∧ workoutDisplayName w.name = "Untitled Workout") ∧
      (∀ authUserId storageFault, createWorkoutAction (fun _ => some 5) authUserId storageFault
          { name := some "", startedAt := "2025-01-10" } 7 [] =
        (.thrownZod [{ path := "name", message := "Workout name is required" }], []))) :=
  ⟨rfl, blank_name_null_and_display_fallback _ _ _ _ _ _ rfl⟩

end LiftingDiary
